import Mathlib

/-!
# Stevedore core: a shallow embedding of the spec-implied reconciliation engine

The repository `jonnyzzz/stevedore` ships only its black-box integration
tests (`tests/integration/test_smoke.py`, `tests/integration/test_install_ubuntu.py`),
promotional artwork, and synthetic test payloads; the daemon implementation is
external.  The specification reconstructs the core from the observable contract
of those tests.  Accordingly, every definition of the core below is modelled
from the spec (its doc comment says so and names the missing piece), and the
theorems settle the frozen claims against this model.
-/

namespace Stevedore

/-- Modelled from the spec: the error taxonomy of §7 for the missing daemon
implementation (`KeyMissing`, `KeyInvalid`, `Conflict`, `NotFound`,
`InvalidInput`, `FetchError`, `ParameterError`, `ContainerError`). -/
inductive SErr where
  | KeyMissing
  | KeyInvalid
  | Conflict
  | NotFound
  | InvalidInput
  | FetchError
  | ParameterError
  | ContainerError
deriving DecidableEq, Repr

/-- Modelled from the spec: deployment health states of §3
(unknown / healthy / unhealthy / failed). -/
inductive Health where
  | unknown
  | healthy
  | unhealthy
  | failed
deriving DecidableEq, Repr

/-- Modelled from the spec: the per-record integrity check of §4.1.  The shift
applied by the (abstract) cipher, derived from the key material. -/
def keyShift (key : String) : Nat :=
  (key.data.map Char.toNat).sum + 1

/-- Modelled from the spec: an encrypted record of the missing store (§4.1).
The spec requires "an embedded integrity check written alongside each encrypted
record" so that a key/data mismatch is detected deterministically; the tag is
modelled as an exact fingerprint of the encrypting key, and the payload as the
plaintext code points shifted by a key-derived amount. -/
structure Encrypted where
  keyTag : String
  payload : List Nat
deriving DecidableEq, Repr

/-- Modelled from the spec: encryption of one value under the daemon key
(§3 Parameter: "Never persisted unencrypted"). -/
def encryptVal (key : String) (v : String) : Encrypted :=
  { keyTag := key, payload := v.data.map (fun c => c.toNat + keyShift key) }

/-- Modelled from the spec: decryption, failing closed with `KeyInvalid` on a
key mismatch ("a wrong key must produce a distinguishable KeyInvalid failure,
not garbage data", §4.1). -/
def decryptVal (key : String) (e : Encrypted) : Except SErr String :=
  if e.keyTag = key then
    .ok (String.mk (e.payload.map (fun n => Char.ofNat (n - keyShift key))))
  else
    .error .KeyInvalid

/-- Modelled from the spec: a secret parameter record of §3:
{deployment name, key (unique per deployment), encrypted value}. -/
structure Param where
  deployment : String
  key : String
  value : Encrypted
deriving DecidableEq, Repr

/-- Modelled from the spec: a repository record of §3: {name, remote URL,
tracked branch, deploy keypair reference, last-observed commit hash,
created timestamp}. -/
structure Repository where
  name : String
  remoteURL : String
  branch : String
  publicKey : String
  privateKey : Encrypted
  lastObservedCommit : Option String
  createdAt : Nat
deriving DecidableEq, Repr

/-- Modelled from the spec: a deployment record of §3: {name, current content
hash, container identity, health status}. -/
structure Deployment where
  name : String
  contentHash : String
  containerId : String
  health : Health
deriving DecidableEq, Repr

/-- Modelled from the spec: the entity contents of the encrypted state store
(§3, §4.1), including the store schema version checked by `doctor` (§4.6). -/
structure Store where
  schemaVersion : Nat
  repos : List Repository
  params : List Param
  deployments : List Deployment
deriving DecidableEq, Repr

/-- Modelled from the spec: the schema version the daemon considers
compatible (§4.6). -/
def currentSchemaVersion : Nat := 1

/-- Modelled from the spec: the fresh store created on first use. -/
def emptyStore : Store :=
  { schemaVersion := currentSchemaVersion, repos := [], params := [], deployments := [] }

/-- Bytes of a string, as code points. -/
def strBytes (s : String) : List Nat :=
  s.data.map Char.toNat

/-- Modelled from the spec: the 16-byte magic header of the encrypted database
file format (the store writes "a single database file", §4.1, which the smoke
test checks is not a plaintext SQLite file). -/
def encMagic : List Nat := strBytes "STEVEDORE-ENCDB1"

/-- The plaintext SQLite magic header the smoke test compares against. -/
def sqliteMagic : List Nat := strBytes "SQLite format 3" ++ [0]

/-- Modelled from the spec: a human-readable serialization of the store
contents, the plaintext that the database file encrypts. -/
def serializeStore (st : Store) : String :=
  toString st.schemaVersion ++ "|" ++
  String.intercalate ";" (st.repos.map (fun r =>
    r.name ++ "," ++ r.remoteURL ++ "," ++ r.branch ++ "," ++ r.publicKey)) ++ "|" ++
  String.intercalate ";" (st.params.map (fun p =>
    p.deployment ++ "," ++ p.key)) ++ "|" ++
  String.intercalate ";" (st.deployments.map (fun d => d.name ++ "," ++ d.contentHash))

/-- Modelled from the spec: a file under the state root.  The missing daemon
writes exactly two kinds of file: plaintext files (the key file, provisioned
externally) and the encrypted database file; the latter is modelled
semantically as the store it encodes together with the key that encrypted it. -/
inductive FileData where
  | text (s : String)
  | encDb (key : String) (st : Store)
deriving DecidableEq, Repr

/-- Modelled from the spec: the on-disk bytes of a file.  The encrypted
database file is the magic header, the integrity tag, and the shifted
serialized store (§4.1: "an embedded integrity check written alongside each
encrypted record"). -/
def fileBytes : FileData → List Nat
  | .text s => strBytes s
  | .encDb key st =>
      encMagic ++ strBytes key ++
        (serializeStore st).data.map (fun c => c.toNat + keyShift key)

/-- Path of the encrypted database file under the state root
(`system/stevedore.db` in the smoke test). -/
def dbFilePath : String := "system/stevedore.db"

/-- Path of the key file under the state root (`system/db.key` in the smoke
test). -/
def keyFilePath : String := "system/db.key"

/-- The legacy plaintext parameter path that must never exist
(`deployments/<dep>/parameters/<KEY>.txt` in the smoke test). -/
def legacyParamPath (dep key : String) : String :=
  "deployments/" ++ dep ++ "/parameters/" ++ key ++ ".txt"

/-- Modelled from the spec: the state root as a finite map from path to file
data (§6: "Persisted state layout"). -/
structure Sys where
  files : List (String × FileData)
deriving DecidableEq, Repr

/-- Look a path up in the state root. -/
def fget (fs : List (String × FileData)) (p : String) : Option FileData :=
  (fs.find? (fun e => e.1 = p)).map (fun e => e.2)

/-- Write a path in the state root (create or overwrite). -/
def fput (fs : List (String × FileData)) (p : String) (d : FileData) :
    List (String × FileData) :=
  (p, d) :: fs.filter (fun e => ¬ e.1 = p)

/-- The empty state root the daemon starts from. -/
def initSys : Sys := { files := [] }

/-- The base64 alphabet. -/
def b64Alphabet : List Char :=
  "ABCDEFGHIJKLMNOPQRSTUVWXYZabcdefghijklmnopqrstuvwxyz0123456789+/".data

/-- The base64 digit for a 6-bit value. -/
def b64Char (n : Nat) : Char := b64Alphabet.getD n 'A'

/-- A character that may appear in base64 material (alphabet or padding). -/
def isB64Char (c : Char) : Bool := decide (c ∈ b64Alphabet) || c = '='

/-- Standard base64 of a byte list, three bytes to four digits, padded. -/
def base64Chunks : List Nat → List Char
  | [] => []
  | [a] => [b64Char (a / 4 % 64), b64Char (a % 4 * 16), '=', '=']
  | [a, b] => [b64Char (a / 4 % 64), b64Char (a % 4 * 16 + b / 16 % 16),
      b64Char (b % 16 * 4), '=']
  | a :: b :: c :: rest =>
      b64Char (a / 4 % 64) :: b64Char (a % 4 * 16 + b / 16 % 16) ::
        b64Char (b % 16 * 4 + c / 64 % 4) :: b64Char (c % 64) :: base64Chunks rest

/-- Base64 encoding as a string. -/
def base64Encode (bs : List Nat) : String := String.mk (base64Chunks bs)

/-- Modelled from the spec: the algorithm identifier prefixed to the public
key text (§4.2: "prefixed with the algorithm identifier"; the smoke test pins
it to `ssh-ed25519 `). -/
def sshAlgId : String := "ssh-ed25519 "

/-- Modelled from the spec: a deploy keypair of §3 (public key exposed,
private key material stored encrypted). -/
structure KeyPair where
  publicKey : String
  privateMaterial : List Nat
deriving DecidableEq, Repr

/-- Modelled from the spec: raw key material of the fixed small size of a
modern elliptic-curve scheme (§4.2), produced deterministically from the
entropy the daemon draws at registration time. -/
def seedBytes (seed : Nat) : List Nat :=
  (List.range 32).map (fun i => (seed + 131 * i + 7) % 256)

/-- Modelled from the spec: `generate() -> KeyPair` of the Deploy-Key Manager
(§4.2): a fresh keypair whose public half is the algorithm identifier followed
by base64 material. -/
def generateKeyPair (seed : Nat) : KeyPair :=
  { publicKey := sshAlgId ++ base64Encode (seedBytes seed)
    privateMaterial := seedBytes (seed + 1) }

/-- The textual pattern `ssh-ed25519 <base64 material>` checked by the smoke
test: the algorithm identifier, then nonempty base64 material. -/
def matchesKeyPattern (s : String) : Bool :=
  sshAlgId.data.isPrefixOf s.data &&
    decide (12 < s.data.length) && (s.data.drop 12).all isB64Char

/-- Modelled from the spec: the environment configuration recognized by the
core (§6): the decryption-key source override (`STEVEDORE_DB_KEY` in the smoke
test), container-engine reachability as observed by Diagnostics, the entropy
drawn for key generation, and the `VERSION` file contents compiled into the
binary. -/
structure Env where
  dbKeyOverride : Option String
  engineReachable : Bool
  entropy : Nat
  versionFileContent : String
deriving DecidableEq, Repr

/-- Modelled from the spec: the observable result of one CLI invocation
(§6): exit code, printed output, the error class if any, and the number of
network calls performed. -/
structure CmdResult where
  exitCode : Nat
  output : String
  error : Option SErr
  networkCalls : Nat
deriving DecidableEq, Repr

/-- Modelled from the spec: the CLI surface of §6. -/
inductive Cmd where
  | doctor
  | version
  | repoAdd (name url branch : String)
  | repoList
  | repoKey (name : String)
  | paramSet (dep key value : String)
  | paramGet (dep key : String)
deriving DecidableEq, Repr

/-- Modelled from the spec: the user-facing message of each error class
(§7: "a specific, human-actionable message"; the smoke test pins the
`KeyMissing` message to contain "database key is missing"). -/
def errMsg : SErr → String
  | .KeyMissing => "database key is missing"
  | .KeyInvalid => "database key is invalid"
  | .Conflict => "repository name already exists"
  | .NotFound => "not found"
  | .InvalidInput => "invalid input"
  | .FetchError => "fetch failed"
  | .ParameterError => "parameter decryption failed"
  | .ContainerError => "container engine is not reachable"

/-- A failing CLI result: non-zero exit, the error's message, no network. -/
def failRes (e : SErr) : CmdResult :=
  { exitCode := 1, output := errMsg e, error := some e, networkCalls := 0 }

/-- A successful CLI result: zero exit, raw output, no network. -/
def okRes (out : String) : CmdResult :=
  { exitCode := 0, output := out, error := none, networkCalls := 0 }

/-- Modelled from the spec: resolution of the key material at process start
(§2 Encrypted State Store, §6: "an override for the decryption key source"):
the environment override wins, else the key file under the state root. -/
def effectiveKey (env : Env) (sys : Sys) : Option String :=
  match env.dbKeyOverride with
  | some k => some k
  | none =>
      match fget sys.files keyFilePath with
      | some (.text k) => some k
      | _ => none

/-- Modelled from the spec: `open(keyMaterial) -> Store | fails(KeyMissing |
KeyInvalid)` (§4.1).  A missing database file opens as the fresh store; an
existing file opens only when the embedded integrity tag matches the key,
otherwise the open fails closed with `KeyInvalid`. -/
def readDb (key : String) (sys : Sys) : Except SErr Store :=
  match fget sys.files dbFilePath with
  | none => .ok emptyStore
  | some (.encDb k st) => if k = key then .ok st else .error .KeyInvalid
  | some (.text _) => .error .KeyInvalid

/-- Modelled from the spec: committing a store transaction writes the single
encrypted database file and nothing else (§4.1: "creates/updates a single
database file under a fixed location; no other file is ever written for
secret data"). -/
def writeDb (key : String) (st : Store) (sys : Sys) : Sys :=
  { files := fput sys.files dbFilePath (.encDb key st) }

/-- Find a repository by name. -/
def findRepo (st : Store) (name : String) : Option Repository :=
  st.repos.find? (fun r => r.name = name)

/-- Find a parameter by deployment and key. -/
def findParam (st : Store) (dep key : String) : Option Param :=
  st.params.find? (fun p => p.deployment = dep && p.key = key)

/-- Modelled from the spec: parameter upsert ("Created/overwritten by set",
§3). -/
def upsertParam (st : Store) (dep key : String) (e : Encrypted) : Store :=
  { st with params :=
      { deployment := dep, key := key, value := e } ::
        st.params.filter (fun p => ¬ (p.deployment = dep ∧ p.key = key)) }

/-- Modelled from the spec: the recognized git-over-SSH remote form (§4.3:
"fails with InvalidInput if remoteURL is not a recognized git-over-SSH
form"). -/
def isGitSSHUrl (url : String) : Bool :=
  "git@".data.isPrefixOf url.data && url.data.contains ':'

/-- Insert a name into a sorted list of names. -/
def insertSorted (s : String) : List String → List String
  | [] => [s]
  | x :: xs => if s ≤ x then s :: x :: xs else x :: insertSorted s xs

/-- Sort names for deterministic listing (§4.3: "ordered by name"). -/
def sortNames (l : List String) : List String := l.foldr insertSorted []

/-- Modelled from the spec: the repository record created by Registry.add
(§4.3): a fresh deploy keypair is generated and persisted as a side effect,
the private half stored encrypted, and no commit has been observed yet. -/
def newRepo (entropy : Nat) (k name url branch : String) : Repository :=
  { name := name, remoteURL := url, branch := branch
    publicKey := (generateKeyPair entropy).publicKey
    privateKey := { keyTag := k, payload := (generateKeyPair entropy).privateMaterial }
    lastObservedCommit := none, createdAt := 0 }

/-- Modelled from the spec: one CLI invocation of the missing daemon (§6),
binding each command to its component contract: `doctor` runs the read-only
checks of §4.6 in order stopping at the first failure; `version` prints the
version string with no network call; `repo add` is Registry.add of §4.3
(prints the generated public key line); `repo list` prints one name per line
ordered by name; `repo key` is Deploy-Key Manager.publicKey of §4.2;
`param set`/`param get` are the encrypted parameter upsert and raw decrypted
read of §3/§6.  Every store access opens the store fail-closed per §4.1. -/
def runCmd (env : Env) (c : Cmd) (sys : Sys) : CmdResult × Sys :=
  match c with
  | .version =>
      (okRes ("stevedore " ++ env.versionFileContent), sys)
  | .doctor =>
      match effectiveKey env sys with
      | none => (failRes .KeyMissing, sys)
      | some k =>
          match readDb k sys with
          | .error e => (failRes e, sys)
          | .ok st =>
              if env.engineReachable then
                if st.schemaVersion = currentSchemaVersion then
                  (okRes "ok", sys)
                else (failRes .InvalidInput, sys)
              else (failRes .ContainerError, sys)
  | .repoAdd name url branch =>
      match effectiveKey env sys with
      | none => (failRes .KeyMissing, sys)
      | some k =>
          match readDb k sys with
          | .error e => (failRes e, sys)
          | .ok st =>
              if st.repos.any (fun r => r.name = name) then
                (failRes .Conflict, sys)
              else if isGitSSHUrl url then
                (okRes (generateKeyPair env.entropy).publicKey,
                  writeDb k
                    { st with repos := newRepo env.entropy k name url branch :: st.repos }
                    sys)
              else (failRes .InvalidInput, sys)
  | .repoList =>
      match effectiveKey env sys with
      | none => (failRes .KeyMissing, sys)
      | some k =>
          match readDb k sys with
          | .error e => (failRes e, sys)
          | .ok st =>
              (okRes (String.intercalate "\n"
                (sortNames (st.repos.map (fun r => r.name)))), sys)
  | .repoKey name =>
      match effectiveKey env sys with
      | none => (failRes .KeyMissing, sys)
      | some k =>
          match readDb k sys with
          | .error e => (failRes e, sys)
          | .ok st =>
              match findRepo st name with
              | none => (failRes .NotFound, sys)
              | some r => (okRes r.publicKey, sys)
  | .paramSet dep key value =>
      match effectiveKey env sys with
      | none => (failRes .KeyMissing, sys)
      | some k =>
          match readDb k sys with
          | .error e => (failRes e, sys)
          | .ok st =>
              (okRes "",
                writeDb k (upsertParam st dep key (encryptVal k value)) sys)
  | .paramGet dep key =>
      match effectiveKey env sys with
      | none => (failRes .KeyMissing, sys)
      | some k =>
          match readDb k sys with
          | .error e => (failRes e, sys)
          | .ok st =>
              match findParam st dep key with
              | none => (failRes .NotFound, sys)
              | some p =>
                  match decryptVal k p.value with
                  | .error e => (failRes e, sys)
                  | .ok v => (okRes v, sys)

/-- Whether a command opens the encrypted store (every command except
`version`). -/
def usesStore : Cmd → Bool
  | .version => false
  | _ => true

/-- Modelled from the spec: an external step acting on the state root —
either a CLI invocation (§6) or the out-of-band provisioning of the key file
(done by the operator or installer; the key file "must never itself be stored
inside the encrypted database", §6). -/
inductive Action where
  | cli (env : Env) (c : Cmd)
  | provisionKey (k : String)

/-- Apply one action to the state root. -/
def applyAct (s : Sys) (a : Action) : Sys :=
  match a with
  | .cli env c => (runCmd env c s).2
  | .provisionKey k => { files := fput s.files keyFilePath (.text k) }

/-- Run a sequence of actions from a state root. -/
def runActs (acts : List Action) (s : Sys) : Sys :=
  acts.foldl applyAct s

/-- Modelled from the spec: the external collaborators one reconciliation
interacts with (§4.5): whether the content fetch at the commit succeeds,
the container id the engine returns on a successful start (none models
`ContainerError`), and the post-start liveness signal. -/
structure OrchEnv where
  fetchOk : Bool
  startResult : Option String
  newHealthy : Bool
deriving DecidableEq, Repr

/-- Modelled from the spec: the daemon-visible world the Orchestrator acts
on: the store contents plus the set of running containers of the engine. -/
structure World where
  store : Store
  running : List String
deriving DecidableEq, Repr

/-- Parameters registered for a deployment name (§4.5 step 2). -/
def paramsFor (st : Store) (dep : String) : List Param :=
  st.params.filter (fun p => p.deployment = dep)

/-- Decrypt all parameters of a deployment; any mismatch fails the whole
resolution (§4.5 step 2: "a decryption failure is ParameterError"). -/
def decryptParams (key : String) (ps : List Param) :
    Except SErr (List (String × String)) :=
  ps.mapM (fun p => (decryptVal key p.value).map (fun v => (p.key, v)))

/-- Find the deployment record for a name. -/
def findDeployment (st : Store) (name : String) : Option Deployment :=
  st.deployments.find? (fun d => d.name = name)

/-- Mark the health of an existing deployment record, touching nothing
else; no record is created (a deployment is "created on first successful
reconciliation", §3). -/
def markHealth (st : Store) (name : String) (h : Health) : Store :=
  { st with deployments := st.deployments.map (fun d =>
      if d.name = name then { d with health := h } else d) }

/-- Record a successful reconciliation: the deployment record for the name is
created or replaced with the new content hash, container identity and
health. -/
def putDeployment (st : Store) (d : Deployment) : Store :=
  { st with deployments :=
      d :: st.deployments.filter (fun x => ¬ x.name = d.name) }

/-- Modelled from the spec: `reconcile(repository, commitHash)` of the
Deployment Orchestrator (§4.5).  Step 1: fetch at the commit; `FetchError`
leaves everything unchanged.  Step 2: resolve and decrypt all parameters;
`ParameterError` aborts without touching the running container.  Step 3:
build/start the replacement container; on `ContainerError` the prior instance
is left running and the deployment health is marked `failed`; on success the
new container is swapped in — the old instance is stopped and removed only
after the new one reports healthy, and rolled back (new one removed, old one
kept) if it does not, marking `unhealthy` without forcing removal. -/
def reconcile (env : OrchEnv) (key : String) (w : World) (repo : Repository)
    (commit : String) : Except SErr Deployment × World :=
  if ¬ env.fetchOk then (.error .FetchError, w)
  else
    match decryptParams key (paramsFor w.store repo.name) with
    | .error _ => (.error .ParameterError, w)
    | .ok _ =>
        match env.startResult with
        | none =>
            (.error .ContainerError,
              { w with store := markHealth w.store repo.name .failed })
        | some cid =>
            match findDeployment w.store repo.name with
            | some prior =>
                if env.newHealthy then
                  let d : Deployment :=
                    { name := repo.name, contentHash := commit,
                      containerId := cid, health := .healthy }
                  (.ok d,
                    { store := putDeployment w.store d,
                      running := cid :: w.running.filter
                        (fun x => ¬ x = prior.containerId) })
                else
                  (.ok { prior with health := .unhealthy },
                    { w with store := markHealth w.store repo.name .unhealthy })
            | none =>
                let h := if env.newHealthy then Health.healthy else .unhealthy
                let d : Deployment :=
                  { name := repo.name, contentHash := commit,
                    containerId := cid, health := h }
                (.ok d,
                  { store := putDeployment w.store d,
                    running := cid :: w.running })

/-- Modelled from the spec: the collaborators of one poll cycle for one
repository (§4.4): the head commit resolved over the remote (none models a
transient network or authentication failure) and the Orchestrator's
environment. -/
structure PollEnv where
  resolveHead : Option String
  orch : OrchEnv
deriving DecidableEq, Repr

/-- `updateObservedCommit(name, commitHash)` of §4.3: written only by the
Poller. -/
def updateObservedCommit (st : Store) (name : String) (commit : String) : Store :=
  { st with repos := st.repos.map (fun r =>
      if r.name = name then { r with lastObservedCommit := some commit } else r) }

/-- Modelled from the spec: one poll cycle for one registered repository
(§4.4): resolve the head of the tracked branch (a transient failure is logged
and retried next cycle, changing nothing); if it differs from the
last-observed commit or no deployment yet exists, invoke the Orchestrator,
and call `updateObservedCommit` only after a successful reconciliation. -/
def pollRepo (penv : PollEnv) (key : String) (w : World) (name : String) : World :=
  match findRepo w.store name with
  | none => w
  | some repo =>
      match penv.resolveHead with
      | none => w
      | some head =>
          if repo.lastObservedCommit = some head ∧
              (findDeployment w.store name).isSome then w
          else
            match reconcile penv.orch key w repo head with
            | (.error _, w1) => w1
            | (.ok _, w1) =>
                { w1 with store := updateObservedCommit w1.store name head }

/-- The state-root invariant maintained by every action: if the database file
exists, it is the encrypted database format (never a plaintext file), and the
repository names recorded in it are pairwise distinct. -/
def goodDb (s : Sys) : Prop :=
  ∀ fd, fget s.files dbFilePath = some fd →
    ∃ k st, fd = FileData.encDb k st ∧ (st.repos.map (fun r => r.name)).Nodup

end Stevedore

namespace Stevedore

/-! ## Basic lemmas about the store model -/

theorem decryptVal_encryptVal (k v : String) :
    decryptVal k (encryptVal k v) = Except.ok v := by
  cases v with
  | mk data =>
      simp [decryptVal, encryptVal, List.map_map, Function.comp_def,
        Nat.add_sub_cancel, Char.ofNat_toNat]

theorem fget_fput_self (fs : List (String × FileData)) (p : String) (d : FileData) :
    fget (fput fs p d) p = some d := by
  simp [fget, fput, List.find?]

theorem find?_filter_ne (fs : List (String × FileData)) (p q : String)
    (h : ¬ q = p) :
    (fs.filter (fun e => ¬ e.1 = p)).find? (fun e => e.1 = q)
      = fs.find? (fun e => e.1 = q) := by
  induction fs with
  | nil => rfl
  | cons e t ih =>
      by_cases hep : e.1 = p
      · have heq : ¬ e.1 = q := fun hq => h ((hq.symm.trans hep))
        rw [List.filter_cons_of_neg (by simpa using hep), ih,
          List.find?_cons_of_neg _ (by simpa using heq)]
      · rw [List.filter_cons_of_pos (by simpa using hep)]
        by_cases heq : e.1 = q
        · rw [List.find?_cons_of_pos _ (by simpa using heq),
            List.find?_cons_of_pos _ (by simpa using heq)]
        · rw [List.find?_cons_of_neg _ (by simpa using heq),
            List.find?_cons_of_neg _ (by simpa using heq), ih]

theorem fget_fput_ne (fs : List (String × FileData)) (p q : String) (d : FileData)
    (h : ¬ q = p) : fget (fput fs p d) q = fget fs q := by
  have h' : ¬ p = q := fun hpq => h hpq.symm
  simp only [fget, fput]
  rw [List.find?_cons_of_neg _ (by simpa using h'), find?_filter_ne _ _ _ h]

theorem effectiveKey_writeDb (env : Env) (k : String) (st : Store) (sys : Sys) :
    effectiveKey env (writeDb k st sys) = effectiveKey env sys := by
  unfold effectiveKey writeDb
  cases env.dbKeyOverride with
  | some k0 => rfl
  | none => rw [fget_fput_ne _ _ _ _ (by decide)]

theorem readDb_writeDb (k : String) (st : Store) (sys : Sys) :
    readDb k (writeDb k st sys) = Except.ok st := by
  simp [readDb, writeDb, fget_fput_self]

/-! ## Lemmas about deploy-key generation and the key pattern -/

theorem isB64Char_b64Char (n : Nat) : isB64Char (b64Char n) = true := by
  have hmem : b64Char n ∈ b64Alphabet := by
    unfold b64Char List.getD
    cases hg : b64Alphabet.get? n with
    | none => simp only [hg, Option.getD]; decide
    | some c => simpa [hg] using List.get?_mem hg
  simp [isB64Char, hmem]

theorem isB64Char_pad : isB64Char '=' = true := by decide

theorem base64Chunks_all (bs : List Nat) :
    (base64Chunks bs).all isB64Char = true := by
  induction bs using base64Chunks.induct <;>
    simp [base64Chunks, isB64Char_b64Char, isB64Char_pad, *]

theorem base64Chunks_length_pos (bs : List Nat) (h : 0 < bs.length) :
    0 < (base64Chunks bs).length := by
  match bs with
  | [] => simp at h
  | [a] => simp [base64Chunks]
  | [a, b] => simp [base64Chunks]
  | a :: b :: c :: rest => simp [base64Chunks]

theorem isPrefixOf_append_self (l t : List Char) : l.isPrefixOf (l ++ t) = true := by
  simp [List.isPrefixOf_iff_prefix]

theorem matchesKeyPattern_generate (seed : Nat) :
    matchesKeyPattern (generateKeyPair seed).publicKey = true := by
  have hlen : (0 : Nat) < (seedBytes seed).length := by simp [seedBytes]
  have hdata : (generateKeyPair seed).publicKey.data
      = sshAlgId.data ++ base64Chunks (seedBytes seed) := by
    simp [generateKeyPair, base64Encode, String.data_append]
  have h12 : sshAlgId.data.length = 12 := by decide
  unfold matchesKeyPattern
  rw [hdata]
  have hdrop : (sshAlgId.data ++ base64Chunks (seedBytes seed)).drop 12
      = base64Chunks (seedBytes seed) := by
    rw [← h12, List.drop_left]
  rw [hdrop]
  simp [isPrefixOf_append_self, base64Chunks_all, List.length_append, h12]
  exact base64Chunks_length_pos _ hlen

/-! ## State preservation of the read-only commands -/

theorem runCmd_version_state (env : Env) (sys : Sys) :
    (runCmd env Cmd.version sys).2 = sys := rfl

theorem runCmd_doctor_state (env : Env) (sys : Sys) :
    (runCmd env Cmd.doctor sys).2 = sys := by
  unfold runCmd
  repeat' split
  all_goals first | rfl | contradiction

theorem runCmd_repoList_state (env : Env) (sys : Sys) :
    (runCmd env Cmd.repoList sys).2 = sys := by
  unfold runCmd
  repeat' split
  all_goals first | rfl | contradiction

theorem runCmd_repoKey_state (env : Env) (name : String) (sys : Sys) :
    (runCmd env (Cmd.repoKey name) sys).2 = sys := by
  unfold runCmd
  repeat' split
  all_goals first | rfl | contradiction

theorem runCmd_paramGet_state (env : Env) (dep key : String) (sys : Sys) :
    (runCmd env (Cmd.paramGet dep key) sys).2 = sys := by
  unfold runCmd
  repeat' split
  all_goals first | rfl | contradiction

/-! ## Characterization of runCmd on resolved scrutinees -/

theorem runCmd_keyMissing (env : Env) (sys : Sys) (c : Cmd)
    (h : effectiveKey env sys = none) (hc : usesStore c = true) :
    runCmd env c sys = (failRes SErr.KeyMissing, sys) := by
  cases c <;> simp_all [runCmd, usesStore]

theorem runCmd_readDbErr (env : Env) (sys : Sys) (c : Cmd) (k : String) (e : SErr)
    (h1 : effectiveKey env sys = some k) (h2 : readDb k sys = Except.error e)
    (hc : usesStore c = true) :
    runCmd env c sys = (failRes e, sys) := by
  cases c <;> simp_all [runCmd, usesStore]

theorem runCmd_paramSet_eq (env : Env) (sys : Sys) (dep key value k : String)
    (st : Store) (h1 : effectiveKey env sys = some k)
    (h2 : readDb k sys = Except.ok st) :
    runCmd env (Cmd.paramSet dep key value) sys
      = (okRes "", writeDb k (upsertParam st dep key (encryptVal k value)) sys) := by
  simp only [runCmd, h1, h2]

theorem runCmd_paramGet_eq (env : Env) (sys : Sys) (dep key k : String)
    (st : Store) (p : Param) (h1 : effectiveKey env sys = some k)
    (h2 : readDb k sys = Except.ok st) (h3 : findParam st dep key = some p) :
    runCmd env (Cmd.paramGet dep key) sys
      = (match decryptVal k p.value with
          | .error e => (failRes e, sys)
          | .ok v => (okRes v, sys)) := by
  simp only [runCmd, h1, h2, h3]

theorem runCmd_repoAdd_conflict (env : Env) (sys : Sys) (name url branch k : String)
    (st : Store) (h1 : effectiveKey env sys = some k)
    (h2 : readDb k sys = Except.ok st)
    (h3 : st.repos.any (fun r => r.name = name) = true) :
    runCmd env (Cmd.repoAdd name url branch) sys = (failRes SErr.Conflict, sys) := by
  simp only [runCmd, h1, h2, h3, if_true]

theorem runCmd_repoAdd_ok (env : Env) (sys : Sys) (name url branch k : String)
    (st : Store) (h1 : effectiveKey env sys = some k)
    (h2 : readDb k sys = Except.ok st)
    (h3 : st.repos.any (fun r => r.name = name) = false)
    (h4 : isGitSSHUrl url = true) :
    runCmd env (Cmd.repoAdd name url branch) sys
      = (okRes (generateKeyPair env.entropy).publicKey,
          writeDb k { st with repos := newRepo env.entropy k name url branch :: st.repos }
            sys) := by
  simp only [runCmd, h1, h2, h3, h4, if_true, Bool.false_eq_true, if_false]

theorem runCmd_repoAdd_invalid (env : Env) (sys : Sys) (name url branch k : String)
    (st : Store) (h1 : effectiveKey env sys = some k)
    (h2 : readDb k sys = Except.ok st)
    (h3 : st.repos.any (fun r => r.name = name) = false)
    (h4 : isGitSSHUrl url = false) :
    runCmd env (Cmd.repoAdd name url branch) sys = (failRes SErr.InvalidInput, sys) := by
  simp only [runCmd, h1, h2, h3, h4, Bool.false_eq_true, if_false]

theorem runCmd_repoList_eq (env : Env) (sys : Sys) (k : String) (st : Store)
    (h1 : effectiveKey env sys = some k) (h2 : readDb k sys = Except.ok st) :
    runCmd env Cmd.repoList sys
      = (okRes (String.intercalate "\n"
          (sortNames (st.repos.map (fun r => r.name)))), sys) := by
  simp only [runCmd, h1, h2]

theorem runCmd_repoKey_eq (env : Env) (sys : Sys) (name k : String) (st : Store)
    (r : Repository) (h1 : effectiveKey env sys = some k)
    (h2 : readDb k sys = Except.ok st) (h3 : findRepo st name = some r) :
    runCmd env (Cmd.repoKey name) sys = (okRes r.publicKey, sys) := by
  simp only [runCmd, h1, h2, h3]

theorem runCmd_doctor_ok (env : Env) (sys : Sys) (k : String) (st : Store)
    (h1 : effectiveKey env sys = some k) (h2 : readDb k sys = Except.ok st)
    (h3 : env.engineReachable = true)
    (h4 : st.schemaVersion = currentSchemaVersion) :
    runCmd env Cmd.doctor sys = (okRes "ok", sys) := by
  simp only [runCmd, h1, h2, h3, h4, if_true]

/-! ## The reachable-state invariant: database encrypted, names unique -/

theorem goodDb_init : goodDb initSys := by
  intro fd h
  simp [initSys, fget] at h

theorem readDb_good (s : Sys) (hs : goodDb s) (k : String) (st : Store)
    (h : readDb k s = Except.ok st) : (st.repos.map (fun r => r.name)).Nodup := by
  cases hfd : fget s.files dbFilePath with
  | none =>
      simp only [readDb, hfd] at h
      cases h
      simp [emptyStore]
  | some fd =>
      obtain ⟨k2, st2, rfl, hnd⟩ := hs fd hfd
      simp only [readDb, hfd] at h
      by_cases hk : k2 = k
      · simp only [if_pos hk] at h
        cases h
        exact hnd
      · simp [hk] at h

theorem goodDb_applyAct (s : Sys) (a : Action) (hs : goodDb s) :
    goodDb (applyAct s a) := by
  cases a with
  | provisionKey k =>
      intro fd hfd
      apply hs
      rw [← hfd]
      exact (fget_fput_ne _ _ _ _ (by decide)).symm
  | cli env c =>
      cases c with
      | version => rw [applyAct, runCmd_version_state]; exact hs
      | doctor => rw [applyAct, runCmd_doctor_state]; exact hs
      | repoList => rw [applyAct, runCmd_repoList_state]; exact hs
      | repoKey name => rw [applyAct, runCmd_repoKey_state]; exact hs
      | paramGet dep key => rw [applyAct, runCmd_paramGet_state]; exact hs
      | repoAdd name url branch =>
          show goodDb (runCmd env (Cmd.repoAdd name url branch) s).2
          cases h1 : effectiveKey env s with
          | none => rw [runCmd_keyMissing env s _ h1 (by rfl)]; exact hs
          | some k =>
              cases h2 : readDb k s with
              | error e => rw [runCmd_readDbErr env s _ k e h1 h2 (by rfl)]; exact hs
              | ok st =>
                  by_cases h3 : st.repos.any (fun r => r.name = name) = true
                  · rw [runCmd_repoAdd_conflict env s name url branch k st h1 h2 h3]
                    exact hs
                  · have h3' : st.repos.any (fun r => r.name = name) = false := by
                      simpa using h3
                    by_cases h4 : isGitSSHUrl url = true
                    · rw [runCmd_repoAdd_ok env s name url branch k st h1 h2 h3' h4]
                      intro fd hfd
                      simp only [writeDb] at hfd
                      rw [fget_fput_self] at hfd
                      cases hfd
                      refine ⟨k, _, rfl, ?_⟩
                      have hnotmem : name ∉ st.repos.map (fun r => r.name) := by
                        intro hmem
                        obtain ⟨r, hr, hrname⟩ := List.mem_map.mp hmem
                        have h5 := (List.any_eq_false.mp h3') r hr
                        simp [hrname] at h5
                      simpa [newRepo, List.nodup_cons, hnotmem] using
                        readDb_good s hs k st h2
                    · have h4' : isGitSSHUrl url = false := by simpa using h4
                      rw [runCmd_repoAdd_invalid env s name url branch k st h1 h2 h3' h4']
                      exact hs
      | paramSet dep key value =>
          show goodDb (runCmd env (Cmd.paramSet dep key value) s).2
          cases h1 : effectiveKey env s with
          | none => rw [runCmd_keyMissing env s _ h1 (by rfl)]; exact hs
          | some k =>
              cases h2 : readDb k s with
              | error e => rw [runCmd_readDbErr env s _ k e h1 h2 (by rfl)]; exact hs
              | ok st =>
                  rw [runCmd_paramSet_eq env s dep key value k st h1 h2]
                  intro fd hfd
                  simp only [writeDb] at hfd
                  rw [fget_fput_self] at hfd
                  cases hfd
                  refine ⟨k, _, rfl, ?_⟩
                  simpa [upsertParam] using readDb_good s hs k st h2

theorem goodDb_runActs (acts : List Action) (s : Sys) (hs : goodDb s) :
    goodDb (runActs acts s) := by
  induction acts generalizing s with
  | nil => exact hs
  | cons a t ih => exact ih _ (goodDb_applyAct s a hs)

/-! ## Path distinctness -/

theorem legacyParamPath_ne_db (dep key : String) :
    ¬ legacyParamPath dep key = dbFilePath := by
  intro h
  have hhead : (legacyParamPath dep key).data.head? = some 'd' := by
    simp only [legacyParamPath, String.data_append, List.append_assoc]
    rfl
  rw [h] at hhead
  exact absurd hhead (by decide)

/-! ## Lemmas about parameter lookup -/

theorem findParam_upsert (st : Store) (dep key : String) (e : Encrypted) :
    findParam (upsertParam st dep key e) dep key
      = some { deployment := dep, key := key, value := e } := by
  simp only [findParam, upsertParam]
  rw [List.find?_cons_of_pos _ (by simp)]

/-! ## Lemmas about the Orchestrator and the Poller -/

theorem reconcile_repos (env : OrchEnv) (key : String) (w : World)
    (repo : Repository) (commit : String) :
    (reconcile env key w repo commit).2.store.repos = w.store.repos := by
  unfold reconcile
  repeat' split
  all_goals simp [markHealth, putDeployment]

theorem reconcile_params (env : OrchEnv) (key : String) (w : World)
    (repo : Repository) (commit : String) :
    (reconcile env key w repo commit).2.store.params = w.store.params := by
  unfold reconcile
  repeat' split
  all_goals simp [markHealth, putDeployment]

theorem findDeployment_markHealth (st : Store) (name : String) (h : Health) :
    findDeployment (markHealth st name h) name
      = (findDeployment st name).map (fun d => { d with health := h }) := by
  simp only [findDeployment, markHealth]
  induction st.deployments with
  | nil => rfl
  | cons d t ih =>
      by_cases hd : d.name = name
      · simp [hd]
      · simp [hd, ih]

theorem findRepo_updateObserved (st : Store) (name commit : String) :
    findRepo (updateObservedCommit st name commit) name
      = (findRepo st name).map
          (fun r => { r with lastObservedCommit := some commit }) := by
  simp only [findRepo, updateObservedCommit]
  induction st.repos with
  | nil => rfl
  | cons r t ih =>
      by_cases hr : r.name = name
      · simp [hr]
      · simp [hr, ih]

theorem reconcile_containerErr (env : OrchEnv) (key : String) (w : World)
    (repo : Repository) (commit : String) (vs : List (String × String))
    (hf : env.fetchOk = true)
    (hdec : decryptParams key (paramsFor w.store repo.name) = Except.ok vs)
    (hs : env.startResult = none) :
    reconcile env key w repo commit
      = (Except.error SErr.ContainerError,
          { w with store := markHealth w.store repo.name Health.failed }) := by
  simp [reconcile, hf, hdec, hs]

/-! ## Claim theorems -/

/-- C9: the `version` command prints the daemon version string beginning with
"stevedore " followed by the contents of the VERSION file, performs no network
calls, and exits 0 (and, being read-only, leaves the state root untouched). -/
theorem c9_version_cmd (env : Env) (sys : Sys) :
    (runCmd env Cmd.version sys).1.output
        = "stevedore " ++ env.versionFileContent ∧
    (runCmd env Cmd.version sys).1.exitCode = 0 ∧
    (runCmd env Cmd.version sys).1.networkCalls = 0 ∧
    (runCmd env Cmd.version sys).1.error = none ∧
    (runCmd env Cmd.version sys).2 = sys :=
  ⟨rfl, rfl, rfl, rfl, rfl⟩

/-- C8: `doctor` with no key source exits non-zero with the message
"database key is missing" — for every environment, in particular also when
the container engine is unreachable, showing the checks run in order and stop
at the first failure; after the key is provisioned but before any repository
exists (no database file yet), `doctor` exits zero; and `doctor` never mutates
the state root. -/
theorem c8_doctor_ordering :
    (∀ env sys, effectiveKey env sys = none →
        runCmd env Cmd.doctor sys = (failRes SErr.KeyMissing, sys) ∧
        ¬ (failRes SErr.KeyMissing).exitCode = 0 ∧
        (failRes SErr.KeyMissing).output = "database key is missing") ∧
    (∀ env sys k, effectiveKey env sys = some k →
        fget sys.files dbFilePath = none → env.engineReachable = true →
        runCmd env Cmd.doctor sys = (okRes "ok", sys) ∧
        (okRes "ok").exitCode = 0) ∧
    (∀ env sys, (runCmd env Cmd.doctor sys).2 = sys) := by
  refine ⟨?_, ?_, ?_⟩
  · intro env sys h
    exact ⟨runCmd_keyMissing env sys Cmd.doctor h (by rfl), by simp [failRes], rfl⟩
  · intro env sys k h1 h2 h3
    have hdb : readDb k sys = Except.ok emptyStore := by simp [readDb, h2]
    exact ⟨runCmd_doctor_ok env sys k emptyStore h1 hdb h3 rfl, rfl⟩
  · intro env sys
    exact runCmd_doctor_state env sys

/-- C8 witness: at concrete inputs, `doctor` before key provisioning (even
with the engine down) reports the missing key, and after provisioning with no
database file it succeeds. -/
theorem c8_doctor_ordering_witness :
    runCmd
      { dbKeyOverride := none, engineReachable := false, entropy := 0,
        versionFileContent := "1" }
      Cmd.doctor initSys
      = (failRes SErr.KeyMissing, initSys) ∧
    runCmd
      { dbKeyOverride := none, engineReachable := true, entropy := 0,
        versionFileContent := "1" }
      Cmd.doctor { files := [(keyFilePath, FileData.text "test-db-key")] }
      = (okRes "ok", { files := [(keyFilePath, FileData.text "test-db-key")] }) :=
  ⟨(c8_doctor_ordering.1 _ _ (by rfl)).1,
   (c8_doctor_ordering.2.1 _ _ "test-db-key" (by rfl) (by rfl) rfl).1⟩

/-- C2: for every deployment, key and value, `param set` followed by
`param get` under the same key material returns exactly the value that was
set (raw output equal to the value byte-for-byte, no trailing formatting,
exit 0, no error). -/
theorem c2_param_roundtrip (env : Env) (sys : Sys) (dep key value k : String)
    (st : Store) (h1 : effectiveKey env sys = some k)
    (h2 : readDb k sys = Except.ok st) :
    (runCmd env (Cmd.paramGet dep key)
        ((runCmd env (Cmd.paramSet dep key value) sys).2)).1 = okRes value := by
  rw [runCmd_paramSet_eq env sys dep key value k st h1 h2]
  have h1a : effectiveKey env
      (writeDb k (upsertParam st dep key (encryptVal k value)) sys) = some k := by
    rw [effectiveKey_writeDb]
    exact h1
  have h2a := readDb_writeDb k (upsertParam st dep key (encryptVal k value)) sys
  have h3 := findParam_upsert st dep key (encryptVal k value)
  rw [runCmd_paramGet_eq env _ dep key k _ _ h1a h2a h3]
  simp [decryptVal_encryptVal]

/-- C2 witness: the smoke test's own roundtrip, with the database URL value,
evaluated at concrete inputs. -/
theorem c2_param_roundtrip_witness :
    (runCmd
      { dbKeyOverride := some "test-db-key", engineReachable := true,
        entropy := 0, versionFileContent := "1" }
      (Cmd.paramGet "demo" "DATABASE_URL")
      ((runCmd
        { dbKeyOverride := some "test-db-key", engineReachable := true,
          entropy := 0, versionFileContent := "1" }
        (Cmd.paramSet "demo" "DATABASE_URL" "postgres://user:pass@db:5432/app")
        initSys).2)).1
      = okRes "postgres://user:pass@db:5432/app" :=
  c2_param_roundtrip _ initSys "demo" "DATABASE_URL"
    "postgres://user:pass@db:5432/app" "test-db-key" emptyStore (by rfl) (by rfl)

/-- C1: every store-opening operation run against a database written under a
different key fails closed: the result is exactly the `KeyInvalid` failure —
a distinguishable error, a non-zero exit, the fixed error message as the only
output (never decrypted-looking data) — and the state root is untouched. -/
theorem c1_wrong_key_fails_closed (env : Env) (sys : Sys) (c : Cmd)
    (k0 k : String) (st0 : Store)
    (hdb : fget sys.files dbFilePath = some (FileData.encDb k0 st0))
    (hk : effectiveKey env sys = some k) (hne : ¬ k0 = k)
    (hc : usesStore c = true) :
    runCmd env c sys = (failRes SErr.KeyInvalid, sys) ∧
    ¬ (failRes SErr.KeyInvalid).exitCode = 0 ∧
    (failRes SErr.KeyInvalid).error = some SErr.KeyInvalid ∧
    (failRes SErr.KeyInvalid).output = errMsg SErr.KeyInvalid := by
  have h2 : readDb k sys = Except.error SErr.KeyInvalid := by
    simp [readDb, hdb, hne]
  exact ⟨runCmd_readDbErr env sys c k SErr.KeyInvalid hk h2 hc,
    by simp [failRes], rfl, rfl⟩

/-- C1 witness: `param get` with the override key "wrong" against a database
written under "test-db-key" fails with `KeyInvalid`. -/
theorem c1_wrong_key_fails_closed_witness :
    runCmd
      { dbKeyOverride := some "wrong", engineReachable := true,
        entropy := 0, versionFileContent := "1" }
      (Cmd.paramGet "demo" "DATABASE_URL")
      { files := [(dbFilePath, FileData.encDb "test-db-key" emptyStore)] }
      = (failRes SErr.KeyInvalid,
          { files := [(dbFilePath, FileData.encDb "test-db-key" emptyStore)] }) :=
  (c1_wrong_key_fails_closed _ _ (Cmd.paramGet "demo" "DATABASE_URL")
    "test-db-key" "wrong" emptyStore (by rfl) (by rfl) (by decide) (by rfl)).1

/-- C4: `param set` writes only the single encrypted database file: every
other path under the state root is unchanged, and in particular the legacy
plaintext parameter path `deployments/<dep>/parameters/<key>.txt` is never
created. -/
theorem c4_no_plaintext_side_files (env : Env) (sys : Sys)
    (dep key value : String) :
    (∀ p, ¬ p = dbFilePath →
        fget ((runCmd env (Cmd.paramSet dep key value) sys).2).files p
          = fget sys.files p) ∧
    (fget sys.files (legacyParamPath dep key) = none →
        fget ((runCmd env (Cmd.paramSet dep key value) sys).2).files
            (legacyParamPath dep key) = none) := by
  have hmain : ∀ p, ¬ p = dbFilePath →
      fget ((runCmd env (Cmd.paramSet dep key value) sys).2).files p
        = fget sys.files p := by
    intro p hp
    cases h1 : effectiveKey env sys with
    | none => rw [runCmd_keyMissing env sys _ h1 (by rfl)]
    | some k =>
        cases h2 : readDb k sys with
        | error e => rw [runCmd_readDbErr env sys _ k e h1 h2 (by rfl)]
        | ok st =>
            rw [runCmd_paramSet_eq env sys dep key value k st h1 h2]
            exact fget_fput_ne _ _ _ _ hp
  refine ⟨hmain, fun hnone => ?_⟩
  rw [hmain _ (legacyParamPath_ne_db dep key)]
  exact hnone

/-- C4 witness: at concrete inputs, `param set` leaves an unrelated path
untouched and creates no legacy plaintext file. -/
theorem c4_no_plaintext_side_files_witness :
    fget ((runCmd
        { dbKeyOverride := some "k", engineReachable := true,
          entropy := 0, versionFileContent := "1" }
        (Cmd.paramSet "demo" "DATABASE_URL" "v") initSys).2).files
        "deployments/demo/app.txt"
      = fget initSys.files "deployments/demo/app.txt" ∧
    fget ((runCmd
        { dbKeyOverride := some "k", engineReachable := true,
          entropy := 0, versionFileContent := "1" }
        (Cmd.paramSet "demo" "DATABASE_URL" "v") initSys).2).files
        (legacyParamPath "demo" "DATABASE_URL") = none :=
  ⟨(c4_no_plaintext_side_files _ initSys "demo" "DATABASE_URL" "v").1
      "deployments/demo/app.txt" (by decide),
   (c4_no_plaintext_side_files _ initSys "demo" "DATABASE_URL" "v").2 (by rfl)⟩

/-- C5: after a successful `repo add`, the printed public key matches the
pattern `ssh-ed25519 <base64 material>`, `repo key` changes no state, and no
matter how many times `repo key` is repeated, it returns exactly the public
key printed by `repo add` — the keypair is generated exactly once at
registration and never regenerated. -/
theorem c5_deploy_key_stable (env : Env) (sys : Sys) (name url branch k : String)
    (st : Store) (h1 : effectiveKey env sys = some k)
    (h2 : readDb k sys = Except.ok st)
    (h3 : st.repos.any (fun r => r.name = name) = false)
    (h4 : isGitSSHUrl url = true) :
    matchesKeyPattern (runCmd env (Cmd.repoAdd name url branch) sys).1.output
      = true ∧
    (runCmd env (Cmd.repoKey name)
        ((runCmd env (Cmd.repoAdd name url branch) sys).2)).2
      = (runCmd env (Cmd.repoAdd name url branch) sys).2 ∧
    ∀ n : Nat,
      (runCmd env (Cmd.repoKey name)
          ((fun s => (runCmd env (Cmd.repoKey name) s).2)^[n]
            ((runCmd env (Cmd.repoAdd name url branch) sys).2))).1.output
        = (runCmd env (Cmd.repoAdd name url branch) sys).1.output := by
  have hadd := runCmd_repoAdd_ok env sys name url branch k st h1 h2 h3 h4
  have h1a : effectiveKey env
      (writeDb k { st with repos := newRepo env.entropy k name url branch :: st.repos }
        sys) = some k := by
    rw [effectiveKey_writeDb]
    exact h1
  have h2a := readDb_writeDb k
    { st with repos := newRepo env.entropy k name url branch :: st.repos } sys
  have hfind : findRepo
      { st with repos := newRepo env.entropy k name url branch :: st.repos } name
      = some (newRepo env.entropy k name url branch) := by
    simp only [findRepo]
    rw [List.find?_cons_of_pos _ (by simp [newRepo])]
  have hkey := runCmd_repoKey_eq env _ name k _ _ h1a h2a hfind
  refine ⟨?_, ?_, ?_⟩
  · rw [hadd]
    exact matchesKeyPattern_generate env.entropy
  · exact runCmd_repoKey_state env name _
  · intro n
    rw [hadd]
    rw [Function.iterate_fixed (runCmd_repoKey_state env name _) n]
    rw [hkey]
    rfl

/-- C5 witness: at the smoke test's inputs, the added key matches the
`ssh-ed25519` base64 pattern and the tenth repeated `repo key` still prints
the key `repo add` printed. -/
theorem c5_deploy_key_stable_witness :
    matchesKeyPattern (runCmd
      { dbKeyOverride := some "test-db-key", engineReachable := true,
        entropy := 42, versionFileContent := "1" }
      (Cmd.repoAdd "demo" "git@github.com:acme/demo.git" "main") initSys).1.output
      = true ∧
    (runCmd
      { dbKeyOverride := some "test-db-key", engineReachable := true,
        entropy := 42, versionFileContent := "1" }
      (Cmd.repoKey "demo")
        ((fun s => (runCmd
          { dbKeyOverride := some "test-db-key", engineReachable := true,
            entropy := 42, versionFileContent := "1" }
          (Cmd.repoKey "demo") s).2)^[10]
          ((runCmd
            { dbKeyOverride := some "test-db-key", engineReachable := true,
              entropy := 42, versionFileContent := "1" }
            (Cmd.repoAdd "demo" "git@github.com:acme/demo.git" "main")
            initSys).2))).1.output
      = (runCmd
          { dbKeyOverride := some "test-db-key", engineReachable := true,
            entropy := 42, versionFileContent := "1" }
          (Cmd.repoAdd "demo" "git@github.com:acme/demo.git" "main")
          initSys).1.output :=
  ⟨(c5_deploy_key_stable _ initSys "demo" "git@github.com:acme/demo.git" "main"
      "test-db-key" emptyStore (by rfl) (by rfl) (by rfl) (by decide)).1,
   (c5_deploy_key_stable _ initSys "demo" "git@github.com:acme/demo.git" "main"
      "test-db-key" emptyStore (by rfl) (by rfl) (by rfl) (by decide)).2.2 10⟩

/-- C3: adding a repository whose name already exists fails with `Conflict`
and a non-zero exit leaving the state untouched; after exactly one successful
add into an empty registry, `repo list` prints exactly that single name; and
in every state reachable from the empty state root, the repository names
recorded in the database are pairwise distinct. -/
theorem c3_repo_names_unique :
    (∀ env sys name url branch k st,
        effectiveKey env sys = some k → readDb k sys = Except.ok st →
        st.repos.any (fun r => r.name = name) = true →
        runCmd env (Cmd.repoAdd name url branch) sys
          = (failRes SErr.Conflict, sys) ∧
        ¬ (failRes SErr.Conflict).exitCode = 0) ∧
    (∀ env sys name url branch k st,
        effectiveKey env sys = some k → readDb k sys = Except.ok st →
        st.repos = [] → isGitSSHUrl url = true →
        (runCmd env Cmd.repoList
            ((runCmd env (Cmd.repoAdd name url branch) sys).2)).1.output
          = name) ∧
    (∀ acts k st,
        fget (runActs acts initSys).files dbFilePath
          = some (FileData.encDb k st) →
        (st.repos.map (fun r => r.name)).Nodup) := by
  refine ⟨?_, ?_, ?_⟩
  · intro env sys name url branch k st h1 h2 h3
    exact ⟨runCmd_repoAdd_conflict env sys name url branch k st h1 h2 h3,
      by simp [failRes]⟩
  · intro env sys name url branch k st h1 h2 hrepos h4
    have h3 : st.repos.any (fun r => r.name = name) = false := by
      rw [hrepos]
      rfl
    rw [runCmd_repoAdd_ok env sys name url branch k st h1 h2 h3 h4]
    have h1a : effectiveKey env
        (writeDb k { st with repos := newRepo env.entropy k name url branch :: st.repos }
          sys) = some k := by
      rw [effectiveKey_writeDb]
      exact h1
    have h2a := readDb_writeDb k
      { st with repos := newRepo env.entropy k name url branch :: st.repos } sys
    rw [runCmd_repoList_eq env _ k _ h1a h2a]
    rw [hrepos]
    simp [sortNames, insertSorted, newRepo, String.intercalate]
    rfl
  · intro acts k st h
    obtain ⟨k2, st2, heq, hnd⟩ :=
      goodDb_runActs acts initSys goodDb_init (FileData.encDb k st) h
    injection heq with hk hst
    subst hst
    exact hnd

/-- C3 witness: adding "demo" into a registry that already holds "demo"
fails with `Conflict`, and after one successful add into the empty registry,
`repo list` prints exactly "demo". -/
theorem c3_repo_names_unique_witness :
    runCmd
      { dbKeyOverride := some "k", engineReachable := true,
        entropy := 0, versionFileContent := "1" }
      (Cmd.repoAdd "demo" "git@github.com:acme/demo.git" "main")
      { files := [(dbFilePath, FileData.encDb "k"
          { schemaVersion := 1,
            repos := [
              { name := "demo", remoteURL := "git@h:r.git",
                branch := "main", publicKey := "pk",
                privateKey := { keyTag := "k", payload := [] },
                lastObservedCommit := none, createdAt := 0 }],
            params := [], deployments := [] })] }
      = (failRes SErr.Conflict,
          { files := [(dbFilePath, FileData.encDb "k"
              { schemaVersion := 1,
                repos := [
                  { name := "demo", remoteURL := "git@h:r.git",
                    branch := "main", publicKey := "pk",
                    privateKey := { keyTag := "k", payload := [] },
                    lastObservedCommit := none, createdAt := 0 }],
                params := [], deployments := [] })] }) ∧
    (runCmd
      { dbKeyOverride := some "k", engineReachable := true,
        entropy := 0, versionFileContent := "1" }
      Cmd.repoList
      ((runCmd
        { dbKeyOverride := some "k", engineReachable := true,
          entropy := 0, versionFileContent := "1" }
        (Cmd.repoAdd "demo" "git@github.com:acme/demo.git" "main")
        initSys).2)).1.output = "demo" :=
  ⟨(c3_repo_names_unique.1 _ _ "demo" "git@github.com:acme/demo.git" "main" "k"
      { schemaVersion := 1,
        repos := [
          { name := "demo", remoteURL := "git@h:r.git",
            branch := "main", publicKey := "pk",
            privateKey := { keyTag := "k", payload := [] },
            lastObservedCommit := none, createdAt := 0 }],
        params := [], deployments := [] }
      (by rfl) (by rfl) (by decide)).1,
   c3_repo_names_unique.2.1 _ initSys "demo" "git@github.com:acme/demo.git"
      "main" "k" emptyStore (by rfl) (by rfl) rfl (by decide)⟩

/-- C10: in every state reachable from the empty state root by any sequence
of key provisioning and CLI operations, if the database file exists its first
16 bytes are the encrypted-format magic header, which is never the plaintext
SQLite magic header "SQLite format 3\x00". -/
theorem c10_db_never_plaintext_sqlite (acts : List Action) (fd : FileData)
    (h : fget (runActs acts initSys).files dbFilePath = some fd) :
    (fileBytes fd).take 16 = encMagic ∧
    ¬ (fileBytes fd).take 16 = sqliteMagic := by
  obtain ⟨k, st, rfl, -⟩ :=
    goodDb_runActs acts initSys goodDb_init fd h
  have h16 : (fileBytes (FileData.encDb k st)).take 16 = encMagic := by
    simp only [fileBytes, List.append_assoc]
    exact List.take_left' (by decide)
  refine ⟨h16, ?_⟩
  rw [h16]
  decide

/-- C10 witness: the database file produced by a concrete `param set` from
the empty state root carries the encrypted magic header, not SQLite's. -/
theorem c10_db_never_plaintext_sqlite_witness :
    ¬ (fileBytes (FileData.encDb "k"
        (upsertParam emptyStore "demo" "K" (encryptVal "k" "v")))).take 16
      = sqliteMagic :=
  (c10_db_never_plaintext_sqlite
    [Action.cli
      { dbKeyOverride := some "k", engineReachable := true,
        entropy := 0, versionFileContent := "1" }
      (Cmd.paramSet "demo" "K" "v")]
    (FileData.encDb "k" (upsertParam emptyStore "demo" "K" (encryptVal "k" "v")))
    (by rfl)).2

/-- C7: when the Orchestrator's container-start step fails during
`reconcile`, the result is the `ContainerError` failure, the set of running
containers is unchanged (the previously running container stays up and
reachable), the prior deployment record keeps its container identity but has
its recorded health marked `failed`, and no stored data (parameters,
repositories) is lost. -/
theorem c7_container_error_leaves_prior_running (env : OrchEnv) (key : String)
    (w : World) (repo : Repository) (commit : String) (d0 : Deployment)
    (hf : env.fetchOk = true)
    (hdec : ∃ vs, decryptParams key (paramsFor w.store repo.name) = Except.ok vs)
    (hstart : env.startResult = none)
    (hd : findDeployment w.store repo.name = some d0) :
    (reconcile env key w repo commit).1 = Except.error SErr.ContainerError ∧
    (reconcile env key w repo commit).2.running = w.running ∧
    findDeployment (reconcile env key w repo commit).2.store repo.name
      = some { d0 with health := Health.failed } ∧
    (reconcile env key w repo commit).2.store.params = w.store.params ∧
    (reconcile env key w repo commit).2.store.repos = w.store.repos := by
  obtain ⟨vs, hdec⟩ := hdec
  rw [reconcile_containerErr env key w repo commit vs hf hdec hstart]
  refine ⟨rfl, rfl, ?_, by simp [markHealth], by simp [markHealth]⟩
  show findDeployment (markHealth w.store repo.name Health.failed) repo.name = _
  rw [findDeployment_markHealth, hd]
  rfl

/-- C7 witness: with one healthy deployment "demo" running container "old",
a failing container start leaves "old" running and marks the record
`failed`. -/
theorem c7_container_error_leaves_prior_running_witness :
    (reconcile { fetchOk := true, startResult := none, newHealthy := true } "k"
      { store :=
          { schemaVersion := 1, repos := [], params := [],
            deployments := [
              { name := "demo", contentHash := "c1",
                containerId := "old", health := Health.healthy }] },
        running := ["old"] }
      { name := "demo", remoteURL := "git@h:r.git", branch := "main",
        publicKey := "pk", privateKey := { keyTag := "k", payload := [] },
        lastObservedCommit := some "c1", createdAt := 0 }
      "c2").1 = Except.error SErr.ContainerError ∧
    (reconcile { fetchOk := true, startResult := none, newHealthy := true } "k"
      { store :=
          { schemaVersion := 1, repos := [], params := [],
            deployments := [
              { name := "demo", contentHash := "c1",
                containerId := "old", health := Health.healthy }] },
        running := ["old"] }
      { name := "demo", remoteURL := "git@h:r.git", branch := "main",
        publicKey := "pk", privateKey := { keyTag := "k", payload := [] },
        lastObservedCommit := some "c1", createdAt := 0 }
      "c2").2.running = ["old"] ∧
    findDeployment
      (reconcile { fetchOk := true, startResult := none, newHealthy := true } "k"
        { store :=
            { schemaVersion := 1, repos := [], params := [],
              deployments := [
                { name := "demo", contentHash := "c1",
                  containerId := "old", health := Health.healthy }] },
          running := ["old"] }
        { name := "demo", remoteURL := "git@h:r.git", branch := "main",
          publicKey := "pk", privateKey := { keyTag := "k", payload := [] },
          lastObservedCommit := some "c1", createdAt := 0 }
        "c2").2.store "demo"
      = some
          { name := "demo", contentHash := "c1",
            containerId := "old", health := Health.failed } := by
  have h := c7_container_error_leaves_prior_running
    { fetchOk := true, startResult := none, newHealthy := true } "k"
    { store :=
        { schemaVersion := 1, repos := [], params := [],
          deployments := [
            { name := "demo", contentHash := "c1",
              containerId := "old", health := Health.healthy }] },
      running := ["old"] }
    { name := "demo", remoteURL := "git@h:r.git", branch := "main",
      publicKey := "pk", privateKey := { keyTag := "k", payload := [] },
      lastObservedCommit := some "c1", createdAt := 0 }
    "c2"
    { name := "demo", contentHash := "c1",
      containerId := "old", health := Health.healthy }
    rfl ⟨[], rfl⟩ rfl rfl
  exact ⟨h.1, h.2.1, h.2.2.1⟩

/-- C6: in a poll cycle for a registered repository, a failed reconciliation
leaves the registry (including the repository's last-observed commit) exactly
as it was, while a successful reconciliation — and only that — advances the
last-observed commit to the resolved head; so `updateObservedCommit` happens
only after a successful reconciliation, giving at-least-once delivery. -/
theorem c6_observed_commit_after_success_only (penv : PollEnv) (key : String)
    (w : World) (name : String) (repo : Repository) (head : String)
    (hr : findRepo w.store name = some repo)
    (hh : penv.resolveHead = some head) :
    (∀ e w1, reconcile penv.orch key w repo head = (Except.error e, w1) →
        (pollRepo penv key w name).store.repos = w.store.repos) ∧
    (∀ d w1, reconcile penv.orch key w repo head = (Except.ok d, w1) →
        ¬ (repo.lastObservedCommit = some head ∧
            (findDeployment w.store name).isSome = true) →
        findRepo (pollRepo penv key w name).store name
          = some { repo with lastObservedCommit := some head }) := by
  constructor
  · intro e w1 hrec
    simp only [pollRepo, hr, hh]
    by_cases hc : repo.lastObservedCommit = some head ∧
        (findDeployment w.store name).isSome = true
    · rw [if_pos hc]
    · rw [if_neg hc, hrec]
      have hrr := reconcile_repos penv.orch key w repo head
      rw [hrec] at hrr
      exact hrr
  · intro d w1 hrec hnot
    simp only [pollRepo, hr, hh]
    rw [if_neg hnot, hrec]
    have hrr := reconcile_repos penv.orch key w repo head
    rw [hrec] at hrr
    have hfind1 : findRepo w1.store name = some repo := by
      simp only [findRepo] at hr ⊢
      rw [hrr]
      exact hr
    show findRepo (updateObservedCommit w1.store name head) name = _
    rw [findRepo_updateObserved, hfind1]
    rfl

/-- C6 witness: with one registered repository at observed commit "c1" and
head "c2", a fetch failure leaves the registry unchanged, and a successful
reconciliation advances the observed commit to "c2". -/
theorem c6_observed_commit_after_success_only_witness :
    (pollRepo
      { resolveHead := some "c2",
        orch := { fetchOk := false, startResult := none, newHealthy := true } }
      "k"
      { store :=
          { schemaVersion := 1,
            repos := [
              { name := "demo", remoteURL := "git@h:r.git", branch := "main",
                publicKey := "pk", privateKey := { keyTag := "k", payload := [] },
                lastObservedCommit := some "c1", createdAt := 0 }],
            params := [], deployments := [] },
        running := [] }
      "demo").store.repos
      = [{ name := "demo", remoteURL := "git@h:r.git", branch := "main",
           publicKey := "pk", privateKey := { keyTag := "k", payload := [] },
           lastObservedCommit := some "c1", createdAt := 0 }] ∧
    findRepo
      (pollRepo
        { resolveHead := some "c2",
          orch := { fetchOk := true, startResult := some "new",
                    newHealthy := true } }
        "k"
        { store :=
            { schemaVersion := 1,
              repos := [
                { name := "demo", remoteURL := "git@h:r.git", branch := "main",
                  publicKey := "pk", privateKey := { keyTag := "k", payload := [] },
                  lastObservedCommit := some "c1", createdAt := 0 }],
              params := [], deployments := [] },
          running := [] }
        "demo").store "demo"
      = some
          { name := "demo", remoteURL := "git@h:r.git", branch := "main",
            publicKey := "pk", privateKey := { keyTag := "k", payload := [] },
            lastObservedCommit := some "c2", createdAt := 0 } := by
  constructor
  · exact (c6_observed_commit_after_success_only
      { resolveHead := some "c2",
        orch := { fetchOk := false, startResult := none, newHealthy := true } }
      "k"
      { store :=
          { schemaVersion := 1,
            repos := [
              { name := "demo", remoteURL := "git@h:r.git", branch := "main",
                publicKey := "pk", privateKey := { keyTag := "k", payload := [] },
                lastObservedCommit := some "c1", createdAt := 0 }],
            params := [], deployments := [] },
        running := [] }
      "demo"
      { name := "demo", remoteURL := "git@h:r.git", branch := "main",
        publicKey := "pk", privateKey := { keyTag := "k", payload := [] },
        lastObservedCommit := some "c1", createdAt := 0 }
      "c2" (by rfl) rfl).1 SErr.FetchError _ (by rfl)
  · exact (c6_observed_commit_after_success_only
      { resolveHead := some "c2",
        orch := { fetchOk := true, startResult := some "new",
                  newHealthy := true } }
      "k"
      { store :=
          { schemaVersion := 1,
            repos := [
              { name := "demo", remoteURL := "git@h:r.git", branch := "main",
                publicKey := "pk", privateKey := { keyTag := "k", payload := [] },
                lastObservedCommit := some "c1", createdAt := 0 }],
            params := [], deployments := [] },
        running := [] }
      "demo"
      { name := "demo", remoteURL := "git@h:r.git", branch := "main",
        publicKey := "pk", privateKey := { keyTag := "k", payload := [] },
        lastObservedCommit := some "c1", createdAt := 0 }
      "c2" (by rfl) rfl).2
      { name := "demo", contentHash := "c2", containerId := "new",
        health := Health.healthy }
      _ (by rfl) (by decide)

end Stevedore
